import Mathlib

/-!
# iio-hwmon: the sampling cycle of `mainapp.cpp`

A shallow embedding of `src/mainapp.cpp`: the entity table, the conversion
`formula`, the raw reader `readIIOHwmonValue`, the timer handler
`asyncReadValue`, the registration loop `createDbusObj` and the part of `main`
that builds the table and arms the timer.

Conventions of the embedding.

* `double` arithmetic is read over exact rationals (`ℚ`); the literals `1.8`,
  `12.9`, ... are the decimal fractions they denote.
* `int` is a 32-bit two's complement integer. Values are carried as `Int` and
  every `int` operation of the source that can leave the range is wrapped with
  `wrapInt32` (signed overflow is undefined in C++; the wrap is what the usual
  targets produce). The loop counter `id` is a `Nat`: it only counts the
  elements of the vector visited so far, and vectors of more than `INT_MAX`
  elements are not considered.
* Uninitialised locals (`buf`, `hwmonread`, `value`) have no initial content
  in the source. The contents of `buf` and `hwmonread` are supplied by the
  environment (`World.buf`, `World.hwmonread`); the `double value`, which the
  source can hand to the bus before ever writing it, is an `Option ℚ` whose
  `none` stands for that indeterminate content.
* The bus and the timer belong to libraries outside the repository. Calls into
  them are recorded (`PropertyCall`) or modelled by the little state they
  need (`deadline_timer`, `dbus_interface`).
-/

namespace iio_hwmon

/-! ## Machine integers -/

/-- Two's complement wrap of an integer into the range of a 32-bit `int`. -/
def wrapInt32 (x : Int) : Int := (x + 2147483648) % 4294967296 - 2147483648

/-- Smallest value of `int`. -/
def INT_MIN : Int := -2147483648

/-- Largest value of `int`. -/
def INT_MAX : Int := 2147483647

/-! ## Library objects -/

/-- Permission argument of `register_property`. -/
inductive PropertyPermission where
  | readOnly
  | readWrite
deriving DecidableEq, Repr

/-- One property registered on an interface: name, initial value, permission. -/
structure dbus_property where
  name : String
  value : ℚ
  permission : PropertyPermission
deriving DecidableEq, Repr

/-- The object behind a `std::shared_ptr<sdbusplus::asio::dbus_interface>`:
the object path and interface name it was added with, the properties
registered on it in order, and whether `initialize()` was called. -/
structure dbus_interface where
  path : String
  name : String
  properties : List dbus_property
  initialized : Bool
deriving DecidableEq, Repr

/-- Models `register_property(name, value, permission)`: the property joins
the interface. -/
def dbus_interface.register_property (i : dbus_interface) (name : String) (value : ℚ)
    (permission : PropertyPermission) : dbus_interface :=
  { i with properties := i.properties ++ [⟨name, value, permission⟩] }

/-- Models `initialize()`: the interface becomes visible on the bus. -/
def dbus_interface.initialize (i : dbus_interface) : dbus_interface :=
  { i with initialized := true }

/-- The interface exposes a property of that name. -/
def dbus_interface.exposes (i : dbus_interface) (name : String) : Prop :=
  ∃ p ∈ i.properties, p.name = name

/-- The interface exposes a property of that name with that initial value. -/
def dbus_interface.exposesWith (i : dbus_interface) (name : String) (value : ℚ) : Prop :=
  ∃ p ∈ i.properties, p.name = name ∧ p.value = value

/-- The `sdbusplus::asio::object_server`: the (path, interface name) pairs
handed to `add_interface`, oldest first. -/
abbrev object_server := List (String × String)

/-- Models `server.add_interface(path, name)`: a fresh interface without
properties, remembered by the server. -/
def add_interface (server : object_server) (path name : String) :
    object_server × dbus_interface :=
  (server ++ [(path, name)], ⟨path, name, [], false⟩)

/-! ## Data model -/

/-- The source's `struct iioEntity`; a null `shared_ptr` is `none`. -/
structure iioEntity where
  valueIface : Option dbus_interface
  critIface : Option dbus_interface
  path : String
  critMax : ℚ
  critMin : ℚ
  r1 : ℚ
  r2 : ℚ
deriving DecidableEq, Repr

/-- The global `hwmonPath`. -/
def hwmonPath : String := "/sys/bus/iio/devices/iio:device0/in_voltage"

/-! ## Conversion -/

/-- The source's `formula(iter, hwmonread)`. `hwmonread + 1` is an `int`
addition, the rest is `double` arithmetic. -/
def formula (iter : iioEntity) (hwmonread : Int) : ℚ :=
  let denominator : ℚ := if iter.r2 = 0 then 1 else iter.r2
  let value : ℚ := (wrapInt32 (hwmonread + 1) : ℚ) * (iter.r1 + iter.r2) /
    ((1024.0 / 1.8) * denominator)
  value

/-! ## Raw sample reader -/

/-- What one run of the timer handler finds outside the program. -/
structure World where
  /-- The text behind each path that `std::ifstream` can open; `none` when
  the open fails (resource absent or not readable). A resource that opens and
  then yields nothing is the empty text. -/
  file : String → Option String
  /-- Content of the uninitialised `char buf[16]` of `readIIOHwmonValue`. -/
  buf : List Char
  /-- Content of the uninitialised `int hwmonread` of `asyncReadValue`. -/
  hwmonread : Int
  /-- Clock reading (microseconds) when the handler runs. -/
  now : Int

/-- The whitespace class of the classic locale (`std::isspace`). -/
def isspace (c : Char) : Bool :=
  c = ' ' || c = '\t' || c = '\n' || c = '\x0b' || c = '\x0c' || c = '\r'

/-- Models `file >> buf` on a `char buf[16]`: leading whitespace is skipped
and at most 15 characters up to the next whitespace are stored (the bound of
the array overload of `operator>>`). When nothing is left to extract, as for
an empty resource, the stream fails and `buf` keeps the content it had. -/
def extract (content : String) (buf : List Char) : List Char :=
  let token := ((content.toList.dropWhile isspace).takeWhile (fun c => !isspace c)).take 15
  if token = [] then buf else token

/-- Value of a run of decimal digits, most significant first. -/
def digitsValue (ds : List Char) : Int :=
  ds.foldl (fun acc c => acc * 10 + ((c.toNat : Int) - 48)) 0

/-- Models `std::atoi`: whitespace is skipped, an optional sign is read, then
the longest run of decimal digits; no digits give 0. The result is an `int`:
a number outside the range is truncated to 32 bits, as the conversion of the
`long` of `strtol` does. -/
def atoi (s : List Char) : Int :=
  match s.dropWhile isspace with
  | '-' :: t => wrapInt32 (-(digitsValue (t.takeWhile Char.isDigit)))
  | '+' :: t => wrapInt32 (digitsValue (t.takeWhile Char.isDigit))
  | t => wrapInt32 (digitsValue (t.takeWhile Char.isDigit))

/-- The source's `readIIOHwmonValue(path, value)`. The pair is the returned
`int` and the content of the reference parameter `value` afterwards. -/
def readIIOHwmonValue (w : World) (path : String) (value : Int) : Int × Int :=
  match w.file path with
  | none => (-1, value)
  | some content =>
    let buf := extract content w.buf
    (0, atoi buf)

/-! ## Timer -/

/-- Models `boost::posix_time::seconds(n)` as a count of microseconds. -/
def seconds (n : Int) : Int := n * 1000000

/-- The `boost::asio::deadline_timer`: its expiry time (microseconds) and
whether a handler is waiting on it. -/
structure deadline_timer where
  expiry : Int
  waiting : Bool
deriving DecidableEq, Repr

/-- Models the setter `timer->expires_at(t)`: the expiry moves and waits that
were outstanding are cancelled. -/
def deadline_timer.expires_at (_t : deadline_timer) (time : Int) : deadline_timer :=
  { expiry := time, waiting := false }

/-- Models `timer->async_wait(handler)` with `asyncReadValue` as handler. -/
def deadline_timer.async_wait (t : deadline_timer) : deadline_timer :=
  { t with waiting := true }

/-! ## Sampling cycle -/

/-- The arguments of one `sdbusplus::asio::setProperty<double>` call. -/
structure PropertyCall where
  service : String
  path : String
  interface : String
  property : String
  value : Option ℚ
deriving DecidableEq, Repr

/-- The `while` loop of `asyncReadValue` from the position `iter` on, `id`,
`hwmonread` and `value` being the locals of that name. The result says whether
the loop ran to `cend()` (`false`: it left through `return`) and lists the
`setProperty` calls it made, each with the value `id` had at the call. -/
def asyncReadValue_loop (w : World) :
    List iioEntity → Nat → Int → Option ℚ → Bool × List (Nat × PropertyCall)
  | [], _, _, _ => (true, [])
  | iter :: rest, id, hwmonread, value =>
    let r := readIIOHwmonValue w (hwmonPath ++ toString id ++ "_raw") hwmonread
    if r.1 = -1 then (false, [])
    else
      let hwmonread := r.2
      let value := if hwmonread ≠ 0 then some (formula iter hwmonread) else value
      let call : PropertyCall :=
        ⟨"xyz.openbmc_project.Hwmon.IIO", iter.path, "xyz.openbmc_project.Sensor.Value",
          "Value", value⟩
      let tail := asyncReadValue_loop w rest (id + 1) hwmonread value
      (tail.1, (id, call) :: tail.2)

/-- The source's `asyncReadValue(error, timer, entities)`: the timer as the
handler leaves it and the `setProperty` calls of the cycle. -/
def asyncReadValue (w : World) (timer : deadline_timer) (entities : List iioEntity) :
    deadline_timer × List (Nat × PropertyCall) :=
  let run := asyncReadValue_loop w entities 0 w.hwmonread none
  if run.1 then
    (((timer.expires_at (timer.expiry + seconds 2)).async_wait), run.2)
  else
    (timer, run.2)

/-- The `Value` property behind each object path, as the bus holds it;
`none` is an indeterminate `double`. -/
abbrev Bus := String → Option ℚ

/-- Effect of one `setProperty` call on the bus. -/
def Bus.setProperty (b : Bus) (c : PropertyCall) : Bus :=
  fun p => if p = c.path then c.value else b p

/-- Effect of the calls of a cycle, in the order they were made. -/
def Bus.apply (b : Bus) (calls : List (Nat × PropertyCall)) : Bus :=
  calls.foldl (fun acc c => acc.setProperty c.2) b

/-! ## Registration -/

/-- One iteration of the `while` loop of `createDbusObj`, on the element at
`iter`. -/
def createDbusObj_body (server : object_server) (iter : iioEntity) :
    object_server × iioEntity :=
  let iter := { iter with path := "/xyz/openbmc_project/sensors/voltage/" ++ iter.path }
  let added := add_interface server iter.path "xyz.openbmc_project.Sensor.Value"
  let server := added.1
  let iter := { iter with valueIface := some added.2 }
  let iter := { iter with
    valueIface := iter.valueIface.map (fun (i : dbus_interface) =>
      i.register_property "Value" 88.88 PropertyPermission.readWrite) }
  let iter := { iter with valueIface := iter.valueIface.map dbus_interface.initialize }
  let added := add_interface server iter.path "xyz.openbmc_project.Sensor.Threshold.Critical"
  let server := added.1
  let iter := { iter with critIface := some added.2 }
  let iter :=
    if iter.path = "/xyz/openbmc_project/sensors/voltage/VBAT" then
      { iter with
        critIface := iter.critIface.map (fun (i : dbus_interface) =>
          i.register_property "WarningLow" 2.6 PropertyPermission.readWrite) }
    else
      { iter with
        critIface := iter.critIface.map (fun (i : dbus_interface) =>
          i.register_property "CriticalHigh" iter.critMax PropertyPermission.readWrite) }
  let iter := { iter with
    critIface := iter.critIface.map (fun (i : dbus_interface) =>
      i.register_property "CriticalLow" iter.critMin PropertyPermission.readWrite) }
  let iter := { iter with critIface := iter.critIface.map dbus_interface.initialize }
  (server, iter)

/-- The source's `createDbusObj(server, entities)`: the server and the vector
after the loop. -/
def createDbusObj : object_server → List iioEntity → object_server × List iioEntity
  | server, [] => (server, [])
  | server, iter :: rest =>
    let first := createDbusObj_body server iter
    let others := createDbusObj first.1 rest
    (others.1, first.2 :: others.2)

/-! ## main -/

/-- The vector `entities` after the sixteen `push_back` calls of `main`. -/
def entities : List iioEntity :=
  [ ⟨none, none, "PLUS12V", 12.9, 11.16, 8.2, 1.0⟩,
    ⟨none, none, "PLUS5V", 5.37, 4.65, 3.0, 1.0⟩,
    ⟨none, none, "PLUS3DOT3V", 3.54, 3.06, 1.8, 1.0⟩,
    ⟨none, none, "PVCCIN_CPU0", 2.04, 1.56, 1.0, 3.0⟩,
    ⟨none, none, "PVCCIN_CPU1", 2.04, 1.56, 1.0, 3.0⟩,
    ⟨none, none, "PVCCIO_CPU0", 1.25, 0.75, 1.0, 1.0⟩,
    ⟨none, none, "PVCCIO_CPU1", 1.25, 0.75, 1.0, 1.0⟩,
    ⟨none, none, "VBAT", 0, 2.5, 787.0, 402.0⟩,
    ⟨none, none, "PVDDQ_ABCD_CPU0", 1.29, 1.11, 1.0, 0⟩,
    ⟨none, none, "PVDDQ_EFGH_CPU0", 1.29, 1.11, 1.0, 0⟩,
    ⟨none, none, "PVDDQ_ABCD_CPU1", 1.29, 1.11, 1.0, 0⟩,
    ⟨none, none, "PVDDQ_EFGH_CPU1", 1.29, 1.11, 1.0, 0⟩,
    ⟨none, none, "P1V05_PCH", 1.11, 0.99, 1.0, 0⟩,
    ⟨none, none, "PVNN_PCH", 1.07, 0.93, 1.0, 0⟩,
    ⟨none, none, "P1V8_PCH", 1.94, 1.66, 5.6, 15.0⟩,
    ⟨none, none, "PGPPA_PCH", 3.54, 3.06, 1.8, 1⟩ ]

/-- The timer of `main` once armed: `deadline_timer timer(io, seconds(2))`
built at clock reading `start`, then `timer.async_wait(...)`. -/
def mainTimer (start : Int) : deadline_timer :=
  (({ expiry := start + seconds 2, waiting := false } : deadline_timer)).async_wait

/-- Models `io.run()` over the successive runs of the handler, one `World` per
run: while a wait is outstanding the timer fires at its expiry and
`asyncReadValue` runs with the wait consumed. The result lists the expiry
times at which the handler was started. -/
def ioRun (entities : List iioEntity) : deadline_timer → List World → List Int
  | _, [] => []
  | timer, w :: ws =>
    if timer.waiting then
      timer.expiry ::
        ioRun entities (asyncReadValue w { timer with waiting := false } entities).1 ws
    else []

/-! ## Auxiliary definitions for the statements -/

/-- Rounding to four decimal places, halves upwards. -/
def roundTo4 (q : ℚ) : ℚ := ((⌊q * 10000 + 1 / 2⌋ : Int) : ℚ) / 10000

/-- The divisor of `formula` for a channel. -/
def divisor (iter : iioEntity) : ℚ :=
  (1024 / 1.8) * (if iter.r2 = 0 then 1 else iter.r2)

/-- Worlds used in the examples: the resources of the positions listed in
`texts` open with the given text, every other open fails. -/
def exampleWorld (texts : List (Nat × String)) : World :=
  { file := fun path =>
      (texts.find? (fun t => path == hwmonPath ++ toString t.1 ++ "_raw")).map (fun t => t.2)
    buf := []
    hwmonread := 0
    now := 0 }

/-- The first two channels of the compiled-in table after registration. -/
def exampleEntities : List iioEntity := (createDbusObj [] (entities.take 2)).2

/-! ## Conversion: theorems -/

theorem wrapInt32_of_range (x : Int) (hlo : INT_MIN ≤ x) (hhi : x ≤ INT_MAX) :
    wrapInt32 x = x := by
  unfold INT_MIN at hlo
  unfold INT_MAX at hhi
  unfold wrapInt32
  omega

theorem divisor_ne_zero (iter : iioEntity) : divisor iter ≠ 0 := by
  unfold divisor
  split
  · norm_num
  · rename_i h
    have h18 : (1024 / 1.8 : ℚ) ≠ 0 := by norm_num
    exact mul_ne_zero h18 h

/-- C1, as the code has it: for every channel and every raw code whose
successor is still an `int` (raw code from `INT_MIN` up to `INT_MAX - 1`),
`formula` equals `(rawCode + 1) * (r1 + r2) / ((1024 / 1.8) * d)` with `d = r2`
when `r2 ≠ 0` and `d = 1` when `r2 = 0`, and the divisor is not zero. -/
theorem formula_eq_of_no_overflow (iter : iioEntity) (rawCode : Int)
    (hlo : INT_MIN ≤ rawCode) (hhi : rawCode < INT_MAX) :
    formula iter rawCode =
        ((rawCode : ℚ) + 1) * (iter.r1 + iter.r2) /
          ((1024 / 1.8) * (if iter.r2 = 0 then 1 else iter.r2)) ∧
      (1024 / 1.8 : ℚ) * (if iter.r2 = 0 then 1 else iter.r2) ≠ 0 := by
  refine ⟨?_, divisor_ne_zero iter⟩
  have hw : wrapInt32 (rawCode + 1) = rawCode + 1 := by
    apply wrapInt32_of_range
    · unfold INT_MIN at *; omega
    · unfold INT_MAX at *; omega
  simp only [formula, hw]
  push_cast
  norm_num

/-- Witness of C1: the PVCCIN_CPU0 constants at raw code 300. -/
theorem formula_eq_of_no_overflow_witness :
    formula ⟨none, none, "PVCCIN_CPU0", 2.04, 1.56, 1.0, 3.0⟩ 300 =
        (((300 : Int) : ℚ) + 1) * ((1.0 : ℚ) + 3.0) /
          ((1024 / 1.8) * (if (3.0 : ℚ) = 0 then 1 else 3.0)) ∧
      (1024 / 1.8 : ℚ) * (if (3.0 : ℚ) = 0 then 1 else 3.0) ≠ 0 :=
  formula_eq_of_no_overflow ⟨none, none, "PVCCIN_CPU0", 2.04, 1.56, 1.0, 3.0⟩ 300
    (by decide) (by decide)

/-- C1 fails at the raw code `INT_MAX`: `hwmonread + 1` leaves the range of
`int`, and `formula` does not return `(rawCode + 1) * (r1 + r2) / ((1024 / 1.8) * r2)`. -/
theorem formula_int_max_counterexample :
    formula ⟨none, none, "PVCCIO_CPU0", 1.25, 0.75, 1.0, 1.0⟩ 2147483647 ≠
      (((2147483647 : Int) : ℚ) + 1) * ((1.0 : ℚ) + 1.0) / ((1024 / 1.8) * 1.0) := by
  simp only [formula, wrapInt32]
  norm_num

theorem formula_pvccin_cpu0_300 :
    formula ⟨none, none, "PVCCIN_CPU0", 2.04, 1.56, 1.0, 3.0⟩ 300 = 2709 / 3840 := by
  simp only [formula, wrapInt32]
  norm_num

/-- C9, as the code has it: the compiled-in channel at registry index 3 is
"PVCCIN_CPU0" with `r1 = 1.0` and `r2 = 3.0`; at raw code 300 `formula` returns
`301 * 4.0 / ((1024 / 1.8) * 3.0)`, and that number rounded to four decimal
places is 0.7055. -/
theorem formula_example_rounds_to_7055 :
    ∃ e, entities[3]? = some e ∧ e.path = "PVCCIN_CPU0" ∧ e.r1 = 1.0 ∧ e.r2 = 3.0 ∧
      formula e 300 = 301 * 4.0 / ((1024 / 1.8) * 3.0) ∧
      roundTo4 (formula e 300) = 0.7055 := by
  refine ⟨⟨none, none, "PVCCIN_CPU0", 2.04, 1.56, 1.0, 3.0⟩, rfl, rfl, rfl, rfl, ?_, ?_⟩
  · rw [formula_pvccin_cpu0_300]; norm_num
  · rw [formula_pvccin_cpu0_300]
    have hfloor : ⌊(2709 / 3840 : ℚ) * 10000 + 1 / 2⌋ = 7055 := by
      rw [Int.floor_eq_iff]
      constructor <;> norm_num
    simp only [roundTo4, hfloor]
    norm_num

/-- C9 fails as stated: the value `formula` returns for "PVCCIN_CPU0" at raw
code 300 does not round to 0.7058; it lies below 0.70575, the least number
that rounds to 0.7058 at four decimal places. -/
theorem formula_example_not_7058 :
    roundTo4 (formula ⟨none, none, "PVCCIN_CPU0", 2.04, 1.56, 1.0, 3.0⟩ 300) ≠ 0.7058 ∧
      formula ⟨none, none, "PVCCIN_CPU0", 2.04, 1.56, 1.0, 3.0⟩ 300 < 0.70575 := by
  rw [formula_pvccin_cpu0_300]
  have hfloor : ⌊(2709 / 3840 : ℚ) * 10000 + 1 / 2⌋ = 7055 := by
    rw [Int.floor_eq_iff]
    constructor <;> norm_num
  simp only [roundTo4, hfloor]
  constructor <;> norm_num

/-! ## Raw sample reader: theorems -/

theorem readIIOHwmonValue_of_closed (w : World) (path : String) (value : Int)
    (h : w.file path = none) : readIIOHwmonValue w path value = (-1, value) := by
  simp [readIIOHwmonValue, h]

theorem readIIOHwmonValue_of_open (w : World) (path content : String) (value : Int)
    (h : w.file path = some content) :
    readIIOHwmonValue w path value = (0, atoi (extract content w.buf)) := by
  simp [readIIOHwmonValue, h]

/-- C5, as the code has it: `readIIOHwmonValue` returns -1 exactly when the
resource cannot be opened, and then leaves the caller's value as it was; a
resource that opens gives the return value 0 whatever its text is. -/
theorem readIIOHwmonValue_fails_iff_not_open (w : World) (path : String) (value : Int) :
    ((readIIOHwmonValue w path value).1 = -1 ↔ w.file path = none) ∧
      ((readIIOHwmonValue w path value).1 = -1 ∨ (readIIOHwmonValue w path value).1 = 0) ∧
      ((readIIOHwmonValue w path value).1 = -1 → (readIIOHwmonValue w path value).2 = value) := by
  cases h : w.file path with
  | none => simp [readIIOHwmonValue, h]
  | some content => simp [readIIOHwmonValue, h]

/-- Witness of C5: a resource that cannot be opened. -/
theorem readIIOHwmonValue_fails_iff_not_open_witness :
    (readIIOHwmonValue ⟨fun _ => none, [], 0, 0⟩
      "/sys/bus/iio/devices/iio:device0/in_voltage0_raw" 7) = (-1, 7) :=
  have h := readIIOHwmonValue_fails_iff_not_open ⟨fun _ => none, [], 0, 0⟩
    "/sys/bus/iio/devices/iio:device0/in_voltage0_raw" 7
  Prod.ext (h.1.mpr rfl) (h.2.2 (h.1.mpr rfl))

/-- C5 fails for text that is not a number: the resource opens, its text
"abc" does not parse as an integer, and `readIIOHwmonValue` returns 0 (success)
with the value 0. -/
theorem readIIOHwmonValue_non_numeric_counterexample :
    readIIOHwmonValue ⟨fun _ => some "abc", [], 0, 0⟩
      "/sys/bus/iio/devices/iio:device0/in_voltage0_raw" 7 = (0, 0) := by
  decide

/-! ## Registration: theorems -/

theorem String.append_left_cancel_iff (p a b : String) : p ++ a = p ++ b ↔ a = b := by
  constructor
  · intro h
    have hd := congrArg String.data h
    simp only [String.data_append] at hd
    exact String.ext (List.append_cancel_left hd)
  · intro h; rw [h]

theorem createDbusObj_getElem? (server : object_server) (ents : List iioEntity) (i : Nat) :
    (createDbusObj server ents).2[i]? =
      (ents[i]?).map (fun e => (createDbusObj_body [] e).2) := by
  induction ents generalizing server i with
  | nil => simp [createDbusObj]
  | cons e rest ih =>
    cases i with
    | zero => simp [createDbusObj]; rfl
    | succ n => simpa [createDbusObj] using ih _ n

theorem createDbusObj_body_path (server : object_server) (e : iioEntity) :
    (createDbusObj_body server e).2.path = "/xyz/openbmc_project/sensors/voltage/" ++ e.path := by
  unfold createDbusObj_body
  dsimp only
  split <;> rfl

theorem createDbusObj_body_resistors (server : object_server) (e : iioEntity) :
    (createDbusObj_body server e).2.r1 = e.r1 ∧ (createDbusObj_body server e).2.r2 = e.r2 := by
  unfold createDbusObj_body
  dsimp only
  split <;> exact ⟨rfl, rfl⟩

theorem createDbusObj_body_critIface (server : object_server) (e : iioEntity) :
    (createDbusObj_body server e).2.critIface =
      some ⟨"/xyz/openbmc_project/sensors/voltage/" ++ e.path,
        "xyz.openbmc_project.Sensor.Threshold.Critical",
        (if e.path = "VBAT" then
            [⟨"WarningLow", 2.6, PropertyPermission.readWrite⟩]
          else [⟨"CriticalHigh", e.critMax, PropertyPermission.readWrite⟩]) ++
          [⟨"CriticalLow", e.critMin, PropertyPermission.readWrite⟩],
        true⟩ := by
  unfold createDbusObj_body
  dsimp only
  by_cases h : e.path = "VBAT"
  · have h2 : "/xyz/openbmc_project/sensors/voltage/" ++ e.path =
        "/xyz/openbmc_project/sensors/voltage/VBAT" := by rw [h]; rfl
    rw [if_pos h2, if_pos h]
    rfl
  · have h2 : ¬ "/xyz/openbmc_project/sensors/voltage/" ++ e.path =
        "/xyz/openbmc_project/sensors/voltage/VBAT" := by
      intro hc
      apply h
      have hv : "/xyz/openbmc_project/sensors/voltage/VBAT" =
          "/xyz/openbmc_project/sensors/voltage/" ++ "VBAT" := by rfl
      rw [hv] at hc
      exact (String.append_left_cancel_iff _ _ _).mp hc
    rw [if_neg h2, if_neg h]
    rfl

/-- C8: for every channel list passed to `createDbusObj`, the threshold
interface of every channel exposes CriticalLow initialised to the channel's
`critMin`; a channel named "VBAT" exposes WarningLow and not CriticalHigh; a
channel with another name exposes CriticalHigh initialised to its `critMax`
and not WarningLow. -/
theorem createDbusObj_threshold_properties (server : object_server) (ents : List iioEntity)
    (i : Nat) (e : iioEntity) (h : ents[i]? = some e) :
    ∃ registered crit, (createDbusObj server ents).2[i]? = some registered ∧
      registered.critIface = some crit ∧
      crit.exposesWith "CriticalLow" e.critMin ∧
      (e.path = "VBAT" → crit.exposes "WarningLow" ∧ ¬ crit.exposes "CriticalHigh") ∧
      (e.path ≠ "VBAT" →
        crit.exposesWith "CriticalHigh" e.critMax ∧ ¬ crit.exposes "WarningLow") := by
  refine ⟨(createDbusObj_body [] e).2, _, ?_, createDbusObj_body_critIface [] e, ?_, ?_, ?_⟩
  · rw [createDbusObj_getElem?, h]; rfl
  · refine ⟨⟨"CriticalLow", e.critMin, PropertyPermission.readWrite⟩, ?_, rfl, rfl⟩
    simp
  · intro hv
    rw [if_pos hv]
    constructor
    · exact ⟨⟨"WarningLow", 2.6, PropertyPermission.readWrite⟩, by simp, rfl⟩
    · rintro ⟨p, hp, hname⟩
      simp only [List.mem_append, List.mem_singleton] at hp
      rcases hp with hp | hp <;> rw [hp] at hname <;> simp at hname
  · intro hv
    rw [if_neg hv]
    constructor
    · exact ⟨⟨"CriticalHigh", e.critMax, PropertyPermission.readWrite⟩, by simp, rfl, rfl⟩
    · rintro ⟨p, hp, hname⟩
      simp only [List.mem_append, List.mem_singleton] at hp
      rcases hp with hp | hp <;> rw [hp] at hname <;> simp at hname

/-- Witness of C8: the compiled-in table, whose entry 7 is "VBAT". -/
theorem createDbusObj_threshold_properties_witness :
    ∃ registered crit, (createDbusObj [] entities).2[7]? = some registered ∧
      registered.critIface = some crit ∧
      crit.exposesWith "CriticalLow" 2.5 ∧
      ("VBAT" = "VBAT" → crit.exposes "WarningLow" ∧ ¬ crit.exposes "CriticalHigh") ∧
      ("VBAT" ≠ "VBAT" →
        crit.exposesWith "CriticalHigh" 0 ∧ ¬ crit.exposes "WarningLow") :=
  createDbusObj_threshold_properties [] entities 7
    ⟨none, none, "VBAT", 0, 2.5, 787.0, 402.0⟩ rfl

/-! ## Sampling cycle: the loop -/

theorem readIIOHwmonValue_fst_eq_neg_one_iff (w : World) (path : String) (value : Int) :
    (readIIOHwmonValue w path value).1 = -1 ↔ w.file path = none := by
  cases h : w.file path with
  | none => simp [readIIOHwmonValue, h]
  | some content => simp [readIIOHwmonValue, h]

theorem asyncReadValue_loop_cons_closed (w : World) (iter : iioEntity) (rest : List iioEntity)
    (id : Nat) (hwmonread : Int) (value : Option ℚ)
    (h : w.file (hwmonPath ++ toString id ++ "_raw") = none) :
    asyncReadValue_loop w (iter :: rest) id hwmonread value = (false, []) := by
  simp [asyncReadValue_loop, readIIOHwmonValue, h]

theorem asyncReadValue_loop_cons_read (w : World) (iter : iioEntity) (rest : List iioEntity)
    (id : Nat) (hwmonread : Int) (value : Option ℚ) (raw : Int)
    (h : readIIOHwmonValue w (hwmonPath ++ toString id ++ "_raw") hwmonread = (0, raw)) :
    asyncReadValue_loop w (iter :: rest) id hwmonread value =
      ((asyncReadValue_loop w rest (id + 1) raw
          (if raw ≠ 0 then some (formula iter raw) else value)).1,
        (id, ⟨"xyz.openbmc_project.Hwmon.IIO", iter.path, "xyz.openbmc_project.Sensor.Value",
            "Value", if raw ≠ 0 then some (formula iter raw) else value⟩) ::
          (asyncReadValue_loop w rest (id + 1) raw
            (if raw ≠ 0 then some (formula iter raw) else value)).2) := by
  simp [asyncReadValue_loop, h]

theorem asyncReadValue_loop_cons_open (w : World) (iter : iioEntity) (rest : List iioEntity)
    (id : Nat) (hwmonread : Int) (value : Option ℚ) (content : String)
    (h : w.file (hwmonPath ++ toString id ++ "_raw") = some content) :
    ∃ raw value1,
      asyncReadValue_loop w (iter :: rest) id hwmonread value =
        ((asyncReadValue_loop w rest (id + 1) raw value1).1,
          (id, ⟨"xyz.openbmc_project.Hwmon.IIO", iter.path,
              "xyz.openbmc_project.Sensor.Value", "Value", value1⟩) ::
            (asyncReadValue_loop w rest (id + 1) raw value1).2) :=
  ⟨_, _, asyncReadValue_loop_cons_read w iter rest id hwmonread value _
    (readIIOHwmonValue_of_open w _ content hwmonread h)⟩

/-- Every call of the loop was made at a position `c.1` from `id` on, targets
the path of the element at that position, and was preceded by successful
opens of the resources of all positions from `id` to `c.1`. -/
theorem asyncReadValue_loop_call (w : World) (ents : List iioEntity) :
    ∀ (id : Nat) (hwmonread : Int) (value : Option ℚ) (c : Nat × PropertyCall),
      c ∈ (asyncReadValue_loop w ents id hwmonread value).2 →
        id ≤ c.1 ∧ (ents[c.1 - id]?).map iioEntity.path = some c.2.path ∧
          ∀ j, id ≤ j → j ≤ c.1 → w.file (hwmonPath ++ toString j ++ "_raw") ≠ none := by
  induction ents with
  | nil =>
    intro id hwmonread value c hc
    simp [asyncReadValue_loop] at hc
  | cons iter rest ih =>
    intro id hwmonread value c hc
    cases hfile : w.file (hwmonPath ++ toString id ++ "_raw") with
    | none =>
      rw [asyncReadValue_loop_cons_closed w iter rest id hwmonread value hfile] at hc
      simp at hc
    | some content =>
      obtain ⟨raw, value1, hstep⟩ :=
        asyncReadValue_loop_cons_open w iter rest id hwmonread value content hfile
      rw [hstep] at hc
      rcases List.mem_cons.mp hc with hhead | htail
      · subst hhead
        refine ⟨le_refl _, by simp, ?_⟩
        intro j h1 h2
        have hj : j = id := le_antisymm h2 h1
        rw [hj, hfile]
        simp
      · obtain ⟨h1, h2, h3⟩ := ih (id + 1) raw value1 c htail
        refine ⟨by omega, ?_, ?_⟩
        · have hidx : c.1 - id = (c.1 - (id + 1)) + 1 := by omega
          rw [hidx]
          simpa using h2
        · intro j hj1 hj2
          by_cases hj : j = id
          · rw [hj, hfile]; simp
          · exact h3 j (by omega) hj2

/-- The loop runs to the end exactly when every resource from `id` on opens. -/
theorem asyncReadValue_loop_done_iff (w : World) (ents : List iioEntity) :
    ∀ (id : Nat) (hwmonread : Int) (value : Option ℚ),
      (asyncReadValue_loop w ents id hwmonread value).1 = true ↔
        ∀ j, j < ents.length → w.file (hwmonPath ++ toString (id + j) ++ "_raw") ≠ none := by
  induction ents with
  | nil =>
    intro id hwmonread value
    simp [asyncReadValue_loop]
  | cons iter rest ih =>
    intro id hwmonread value
    cases hfile : w.file (hwmonPath ++ toString id ++ "_raw") with
    | none =>
      rw [asyncReadValue_loop_cons_closed w iter rest id hwmonread value hfile]
      constructor
      · intro h; cases h
      · intro h
        exact absurd hfile (by simpa using h 0 (by simp))
    | some content =>
      obtain ⟨raw, value1, hstep⟩ :=
        asyncReadValue_loop_cons_open w iter rest id hwmonread value content hfile
      rw [hstep]
      dsimp only
      rw [ih (id + 1) raw value1]
      constructor
      · intro h j hj
        cases j with
        | zero => simp [hfile]
        | succ n =>
          have := h n (by simpa using hj)
          rwa [show id + 1 + n = id + (n + 1) by omega] at this
      · intro h j hj
        have := h (j + 1) (by simpa using hj)
        rwa [show id + (j + 1) = id + 1 + j by omega] at this

/-! ## Sampling cycle: a failing read -/

theorem asyncReadValue_calls_eq (w : World) (timer : deadline_timer) (ents : List iioEntity) :
    (asyncReadValue w timer ents).2 = (asyncReadValue_loop w ents 0 w.hwmonread none).2 := by
  unfold asyncReadValue
  dsimp only
  split <;> rfl

/-- C7: for every cycle in which the raw read of the channel at registry
position `k` fails, every `setProperty` call of the cycle was made at a
position below `k`, for the path of the channel at that position: no call is
made for position `k` or a later one. -/
theorem asyncReadValue_no_call_from_failed_position (w : World) (timer : deadline_timer)
    (ents : List iioEntity) (k : Nat) (hk : k < ents.length)
    (hfail : ∀ v, (readIIOHwmonValue w (hwmonPath ++ toString k ++ "_raw") v).1 = -1) :
    ∀ c ∈ (asyncReadValue w timer ents).2,
      c.1 < k ∧ (ents[c.1]?).map iioEntity.path = some c.2.path := by
  intro c hc
  have _hpos : k < ents.length := hk
  rw [asyncReadValue_calls_eq] at hc
  obtain ⟨_, hpath, hopen⟩ := asyncReadValue_loop_call w ents 0 w.hwmonread none c hc
  constructor
  · by_contra hge
    have hclosed := (readIIOHwmonValue_fst_eq_neg_one_iff w _ 0).mp (hfail 0)
    exact hopen k (Nat.zero_le _) (by omega) hclosed
  · simpa using hpath

theorem exampleEntities_eq :
    exampleEntities =
      [(createDbusObj_body [] ⟨none, none, "PLUS12V", 12.9, 11.16, 8.2, 1.0⟩).2,
        (createDbusObj_body [] ⟨none, none, "PLUS5V", 5.37, 4.65, 3.0, 1.0⟩).2] := rfl

theorem formula_congr (a b : iioEntity) (hwmonread : Int) (h1 : a.r1 = b.r1)
    (h2 : a.r2 = b.r2) : formula a hwmonread = formula b hwmonread := by
  simp only [formula, h1, h2]

theorem formula_createDbusObj_body (server : object_server) (e : iioEntity) (hwmonread : Int) :
    formula (createDbusObj_body server e).2 hwmonread = formula e hwmonread :=
  formula_congr _ _ _ (createDbusObj_body_resistors server e).1
    (createDbusObj_body_resistors server e).2

/-- The cycle on `exampleEntities` when channel 0 reads 512 and channel 1
reads 0. -/
theorem example_cycle_zero :
    asyncReadValue_loop (exampleWorld [(0, "512"), (1, "0")]) exampleEntities 0 0 none =
      (true,
        [(0, ⟨"xyz.openbmc_project.Hwmon.IIO", "/xyz/openbmc_project/sensors/voltage/PLUS12V",
          "xyz.openbmc_project.Sensor.Value", "Value",
          some (formula ⟨none, none, "PLUS12V", 12.9, 11.16, 8.2, 1.0⟩ 512)⟩),
         (1, ⟨"xyz.openbmc_project.Hwmon.IIO", "/xyz/openbmc_project/sensors/voltage/PLUS5V",
          "xyz.openbmc_project.Sensor.Value", "Value",
          some (formula ⟨none, none, "PLUS12V", 12.9, 11.16, 8.2, 1.0⟩ 512)⟩)]) := by
  rw [exampleEntities_eq]
  rw [asyncReadValue_loop_cons_read _ _ _ 0 0 none 512 (by decide)]
  rw [asyncReadValue_loop_cons_read _ _ _ (0 + 1) 512 _ 0 (by decide)]
  rw [formula_createDbusObj_body, createDbusObj_body_path, createDbusObj_body_path]
  rfl

/-- Witness of C7: on `exampleEntities` with the resource of channel 1 not
opening, every call of the cycle was made at position 0. -/
theorem asyncReadValue_no_call_from_failed_position_witness :
    1 < exampleEntities.length ∧
      (∀ v, (readIIOHwmonValue (exampleWorld [(0, "512")])
        (hwmonPath ++ toString 1 ++ "_raw") v).1 = -1) ∧
      ∀ c ∈ (asyncReadValue (exampleWorld [(0, "512")]) ⟨2000000, false⟩ exampleEntities).2,
        c.1 < 1 ∧ (exampleEntities[c.1]?).map iioEntity.path = some c.2.path :=
  ⟨by decide, fun _ => rfl,
    asyncReadValue_no_call_from_failed_position (exampleWorld [(0, "512")]) ⟨2000000, false⟩
      exampleEntities 1 (by decide) (fun _ => rfl)⟩

/-- C2, the code at the failing input: channel 0 reads 512 and channel 1 reads
0; the cycle calls `setProperty` for channel 1 all the same, with the voltage
computed for channel 0. -/
theorem asyncReadValue_zero_read_still_publishes :
    (asyncReadValue (exampleWorld [(0, "512"), (1, "0")]) ⟨2000000, false⟩ exampleEntities).2 =
      [(0, ⟨"xyz.openbmc_project.Hwmon.IIO", "/xyz/openbmc_project/sensors/voltage/PLUS12V",
        "xyz.openbmc_project.Sensor.Value", "Value",
        some (formula ⟨none, none, "PLUS12V", 12.9, 11.16, 8.2, 1.0⟩ 512)⟩),
       (1, ⟨"xyz.openbmc_project.Hwmon.IIO", "/xyz/openbmc_project/sensors/voltage/PLUS5V",
        "xyz.openbmc_project.Sensor.Value", "Value",
        some (formula ⟨none, none, "PLUS12V", 12.9, 11.16, 8.2, 1.0⟩ 512)⟩)] := by
  rw [asyncReadValue_calls_eq]
  exact congrArg Prod.snd example_cycle_zero

/-- After a read failure the handler returns the timer as it received it. -/
theorem asyncReadValue_timer_of_failure (w : World) (timer : deadline_timer)
    (ents : List iioEntity) (k : Nat) (hk : k < ents.length)
    (hfail : w.file (hwmonPath ++ toString k ++ "_raw") = none) :
    (asyncReadValue w timer ents).1 = timer := by
  have hdone : (asyncReadValue_loop w ents 0 w.hwmonread none).1 = false := by
    cases hrun : (asyncReadValue_loop w ents 0 w.hwmonread none).1 with
    | false => rfl
    | true =>
      have hall := (asyncReadValue_loop_done_iff w ents 0 w.hwmonread none).mp hrun k hk
      rw [Nat.zero_add] at hall
      exact absurd hfail hall
  simp [asyncReadValue, hdone]

/-- After a cycle without read failure the handler has moved the expiry by two
seconds and left a wait outstanding. -/
theorem asyncReadValue_timer_of_success (w : World) (timer : deadline_timer)
    (ents : List iioEntity)
    (hopen : ∀ j, j < ents.length → w.file (hwmonPath ++ toString j ++ "_raw") ≠ none) :
    (asyncReadValue w timer ents).1 = ⟨timer.expiry + seconds 2, true⟩ := by
  have hdone : (asyncReadValue_loop w ents 0 w.hwmonread none).1 = true := by
    rw [asyncReadValue_loop_done_iff]
    intro j hj
    rw [Nat.zero_add]
    exact hopen j hj
  simp [asyncReadValue, hdone, deadline_timer.expires_at, deadline_timer.async_wait]

/-- C3, the code at the failing input: channel 0 reads 512 and the resource of
channel 1 does not open; the handler, entered with expiry 2000000 and its wait
consumed, leaves the timer exactly so: the expiry has not moved and no wait is
outstanding. -/
theorem asyncReadValue_failure_does_not_reschedule :
    (asyncReadValue (exampleWorld [(0, "512")]) ⟨2000000, false⟩ exampleEntities).1 =
      ⟨2000000, false⟩ :=
  asyncReadValue_timer_of_failure _ _ _ 1 (by decide) (by decide)

/-! ## Sampling cycle: effect on the bus -/

theorem createDbusObj_snd_eq_map (server : object_server) (ents : List iioEntity) :
    (createDbusObj server ents).2 = ents.map (fun e => (createDbusObj_body [] e).2) := by
  induction ents generalizing server with
  | nil => rfl
  | cons e rest ih =>
    show (createDbusObj_body server e).2 :: (createDbusObj (createDbusObj_body server e).1 rest).2
      = (createDbusObj_body [] e).2 :: rest.map (fun e => (createDbusObj_body [] e).2)
    rw [ih]
    rfl

theorem asyncReadValue_loop_registered_nonzero (w : World) (raw : Nat → Int)
    (ents : List iioEntity) :
    ∀ (id : Nat) (hwmonread : Int) (value : Option ℚ),
      (∀ j, j < ents.length → ∀ u,
        readIIOHwmonValue w (hwmonPath ++ toString (id + j) ++ "_raw") u = (0, raw (id + j)) ∧
          raw (id + j) ≠ 0) →
      asyncReadValue_loop w (ents.map (fun e => (createDbusObj_body [] e).2)) id hwmonread value =
        (true, (ents.enumFrom id).map (fun p =>
          (p.1, ⟨"xyz.openbmc_project.Hwmon.IIO",
            "/xyz/openbmc_project/sensors/voltage/" ++ p.2.path,
            "xyz.openbmc_project.Sensor.Value", "Value",
            some (formula p.2 (raw p.1))⟩))) := by
  induction ents with
  | nil =>
    intro id hwmonread value _
    rfl
  | cons e rest ih =>
    intro id hwmonread value h
    have h0 := h 0 (by simp) hwmonread
    rw [Nat.add_zero] at h0
    have hrest : ∀ j, j < rest.length → ∀ u,
        readIIOHwmonValue w (hwmonPath ++ toString (id + 1 + j) ++ "_raw") u =
          (0, raw (id + 1 + j)) ∧ raw (id + 1 + j) ≠ 0 := by
      intro j hj u
      have := h (j + 1) (by simpa using hj) u
      rwa [show id + (j + 1) = id + 1 + j by omega] at this
    rw [List.map_cons, asyncReadValue_loop_cons_read w _ _ id hwmonread value (raw id) h0.1]
    rw [if_pos h0.2, ih (id + 1) (raw id) _ hrest]
    rw [formula_createDbusObj_body, createDbusObj_body_path]
    rfl

/-- C10: for every channel list, registered by `createDbusObj`, and every
cycle in which each channel's raw read succeeds with a non-zero code, the
calls of `asyncReadValue` are exactly one per channel, in registry order; the
call of position `i`, whose code `raw i` was read from
`hwmonPath + i + "_raw"`, targets "/xyz/openbmc_project/sensors/voltage/" + the
name of channel `i` and carries `formula` of channel `i` at `raw i`. -/
theorem asyncReadValue_publishes_every_channel (w : World) (timer : deadline_timer)
    (server : object_server) (ents : List iioEntity) (raw : Nat → Int)
    (hread : ∀ i, i < ents.length → ∀ u,
      readIIOHwmonValue w (hwmonPath ++ toString i ++ "_raw") u = (0, raw i) ∧ raw i ≠ 0) :
    (asyncReadValue w timer (createDbusObj server ents).2).2 =
      ents.enum.map (fun p =>
        (p.1, ⟨"xyz.openbmc_project.Hwmon.IIO",
          "/xyz/openbmc_project/sensors/voltage/" ++ p.2.path,
          "xyz.openbmc_project.Sensor.Value", "Value",
          some (formula p.2 (raw p.1))⟩)) := by
  rw [asyncReadValue_calls_eq, createDbusObj_snd_eq_map]
  rw [asyncReadValue_loop_registered_nonzero w raw ents 0 w.hwmonread none]
  · rfl
  · intro j hj u
    rw [Nat.zero_add]
    exact hread j hj u

/-- Witness of C10: the first two compiled-in channels reading 512 and 300. -/
theorem asyncReadValue_publishes_every_channel_witness :
    (asyncReadValue (exampleWorld [(0, "512"), (1, "300")]) ⟨2000000, false⟩
        (createDbusObj [] (entities.take 2)).2).2 =
      (entities.take 2).enum.map (fun p =>
        (p.1, ⟨"xyz.openbmc_project.Hwmon.IIO",
          "/xyz/openbmc_project/sensors/voltage/" ++ p.2.path,
          "xyz.openbmc_project.Sensor.Value", "Value",
          some (formula p.2 ((fun i => if i = 0 then 512 else 300) p.1))⟩)) :=
  asyncReadValue_publishes_every_channel (exampleWorld [(0, "512"), (1, "300")])
    ⟨2000000, false⟩ [] (entities.take 2) (fun i => if i = 0 then 512 else 300)
    (by
      intro i hi u
      have hi2 : i < 2 := hi
      have hcases : i = 0 ∨ i = 1 := by omega
      rcases hcases with h | h <;> subst h <;> exact ⟨rfl, by decide⟩)

/-! ## Timer: the sequence of deadlines -/

theorem ioRun_of_not_waiting (ents : List iioEntity) (timer : deadline_timer)
    (ws : List World) (h : timer.waiting = false) : ioRun ents timer ws = [] := by
  cases ws with
  | nil => rfl
  | cons w ws => simp [ioRun, h]

theorem ioRun_cons_waiting (ents : List iioEntity) (timer : deadline_timer) (w : World)
    (ws : List World) (h : timer.waiting = true) :
    ioRun ents timer (w :: ws) =
      timer.expiry ::
        ioRun ents (asyncReadValue w { timer with waiting := false } ents).1 ws := by
  simp [ioRun, h]

theorem asyncReadValue_timer_cases (w : World) (timer : deadline_timer)
    (ents : List iioEntity) :
    (asyncReadValue w timer ents).1 = timer ∨
      (asyncReadValue w timer ents).1 = ⟨timer.expiry + seconds 2, true⟩ := by
  unfold asyncReadValue
  dsimp only
  split
  · right; rfl
  · left; rfl

theorem ioRun_deadline_of_tick (ents : List iioEntity) (ws : List World) :
    ∀ (timer : deadline_timer) (n : Nat) (d : Int),
      (ioRun ents timer ws)[n]? = some d → d = timer.expiry + n * seconds 2 := by
  induction ws with
  | nil =>
    intro timer n d h
    simp [ioRun] at h
  | cons w ws ih =>
    intro timer n d h
    cases hw : timer.waiting with
    | false =>
      rw [ioRun_of_not_waiting ents timer _ hw] at h
      simp at h
    | true =>
      rw [ioRun_cons_waiting ents timer w ws hw] at h
      cases n with
      | zero =>
        simp at h
        simp [h]
      | succ m =>
        rw [List.getElem?_cons_succ] at h
        rcases asyncReadValue_timer_cases w { timer with waiting := false } ents with hc | hc
        · rw [hc, ioRun_of_not_waiting ents _ _ rfl] at h
          simp at h
        · rw [hc] at h
          have := ih _ m d h
          rw [this]
          push_cast
          ring

theorem ioRun_tick_of_success (ents : List iioEntity) (ws : List World) :
    ∀ (timer : deadline_timer) (n : Nat), timer.waiting = true → n < ws.length →
      (∀ w ∈ ws.take n, ∀ j, j < ents.length →
        w.file (hwmonPath ++ toString j ++ "_raw") ≠ none) →
      (ioRun ents timer ws)[n]? = some (timer.expiry + n * seconds 2) := by
  induction ws with
  | nil =>
    intro timer n _ hn
    simp at hn
  | cons w ws ih =>
    intro timer n hw hn hopen
    rw [ioRun_cons_waiting ents timer w ws hw]
    cases n with
    | zero => simp
    | succ m =>
      rw [List.getElem?_cons_succ]
      have hfirst : ∀ j, j < ents.length →
          w.file (hwmonPath ++ toString j ++ "_raw") ≠ none :=
        hopen w (by simp)
      rw [asyncReadValue_timer_of_success w _ ents hfirst]
      rw [ih ⟨timer.expiry + seconds 2, true⟩ m rfl (by simpa using hn)
        (fun w1 hw1 => hopen w1 (by simp [hw1]))]
      congr 1
      push_cast
      ring

theorem asyncReadValue_loop_now (w : World) (t : Int) (ents : List iioEntity) :
    ∀ (id : Nat) (hwmonread : Int) (value : Option ℚ),
      asyncReadValue_loop { w with now := t } ents id hwmonread value =
        asyncReadValue_loop w ents id hwmonread value := by
  induction ents with
  | nil => intro id hwmonread value; rfl
  | cons iter rest ih =>
    intro id hwmonread value
    simp only [asyncReadValue_loop]
    have hread : readIIOHwmonValue { w with now := t } (hwmonPath ++ toString id ++ "_raw")
        hwmonread = readIIOHwmonValue w (hwmonPath ++ toString id ++ "_raw") hwmonread := rfl
    rw [hread]
    split
    · rfl
    · rw [ih]

theorem asyncReadValue_now (w : World) (t : Int) (timer : deadline_timer)
    (ents : List iioEntity) :
    asyncReadValue { w with now := t } timer ents = asyncReadValue w timer ents := by
  unfold asyncReadValue
  rw [asyncReadValue_loop_now]

theorem ioRun_now (ents : List iioEntity) (clock : World → Int) (ws : List World) :
    ∀ (timer : deadline_timer),
      ioRun ents timer (ws.map (fun w => { w with now := clock w })) = ioRun ents timer ws := by
  induction ws with
  | nil => intro timer; rfl
  | cons w ws ih =>
    intro timer
    simp only [List.map_cons, ioRun]
    split
    · rw [asyncReadValue_now, ih]
    · rfl

/-- C4: with the timer armed by `main` at clock reading `start`, the start
deadline is `start + seconds 2`; whenever the handler is started for the
`n`-th time after the first, the expiry it was started at is the start
deadline plus `n` times two seconds; that start takes place whenever `n`
further cycles are scheduled and the `n` cycles before it met no read failure;
and the sequence of deadlines is the same whatever the clock readings
`World.now` at which the cycles ran. -/
theorem ioRun_tick_deadline (ents : List iioEntity) (start : Int) (ws : List World) (n : Nat) :
    (∀ d, (ioRun ents (mainTimer start) ws)[n]? = some d →
        d = (start + seconds 2) + n * seconds 2) ∧
      (n < ws.length →
        (∀ w ∈ ws.take n, ∀ j, j < ents.length →
          w.file (hwmonPath ++ toString j ++ "_raw") ≠ none) →
        (ioRun ents (mainTimer start) ws)[n]? = some ((start + seconds 2) + n * seconds 2)) ∧
      (∀ clock : World → Int,
        ioRun ents (mainTimer start) (ws.map (fun w => { w with now := clock w })) =
          ioRun ents (mainTimer start) ws) :=
  ⟨fun d h => ioRun_deadline_of_tick ents ws (mainTimer start) n d h,
    fun hn hopen => ioRun_tick_of_success ents ws (mainTimer start) n rfl hn hopen,
    fun clock => ioRun_now ents clock ws (mainTimer start)⟩

/-- Witness of C4: three cycles on `exampleEntities`, entered at clock readings
that lag the deadlines by different amounts; the third start is at the start
deadline plus four seconds. -/
theorem ioRun_tick_deadline_witness :
    (ioRun exampleEntities (mainTimer 5)
        [{ exampleWorld [(0, "512"), (1, "0")] with now := 2000005 },
         { exampleWorld [(0, "512"), (1, "300")] with now := 4900000 },
         { exampleWorld [(0, "512")] with now := 6000005 }])[2]? =
      some ((5 + seconds 2) + (2 : Nat) * seconds 2) :=
  (ioRun_tick_deadline exampleEntities 5
    [{ exampleWorld [(0, "512"), (1, "0")] with now := 2000005 },
     { exampleWorld [(0, "512"), (1, "300")] with now := 4900000 },
     { exampleWorld [(0, "512")] with now := 6000005 }] 2).2.1 (by decide) (by decide)

end iio_hwmon
